import Mathlib

/-!
Shallow embedding of the transfer-token service
(`packages/core/admin/server/src/services/transfer/token.ts`-style module,
given as `src/unnamed/part_000`) together with the store adapter it drives.

External collaborators are passed explicitly:
  - the permission registry (`permissionService.providers.action.keys()`)
    as a `List String`;
  - the allowed lifespans (`Object.values(constants.TRANSFER_TOKEN_LIFESPANS)`,
    an external configuration constant not part of the sources) as a
    `List Int`;
  - the keyed hash (`crypto.createHmac('sha512', salt)`) as an abstract
    function `hmac : String → String → String` plus the configured salt
    as `Option String` (`none` = salt missing/invalid);
  - randomness (`crypto.randomBytes(128).toString('hex')`) as an explicit
    `randomKey : String` argument;
  - the clock (`Date.now()`) as an explicit `now : Int` argument.

JavaScript runtime values needed by the code's dynamic checks are modelled
explicitly: `JsNum` for the `lifespan` positions (null/undefined, finite
numbers, NaN, ±Infinity) and `JsVal` for the `accessKey` candidate
(string, undefined, other).
-/

namespace TransferTokens

/-- Errors raised by the service: `errors.ValidationError`,
`errors.NotFoundError`, Node `assert`'s `AssertionError`, and the
`TypeError` thrown by `hash` when the salt is missing. -/
inductive TokenError where
  | validation : String → TokenError
  | notFound : String → TokenError
  | assertion : String → TokenError
  | typeError : String → TokenError
deriving DecidableEq, Repr

/-- A JavaScript number-or-nullish value as it can appear in the
`lifespan` position (`number`, `null`/`undefined`, `NaN`, `±Infinity`).
`null` models both `null` and `undefined` (they agree on `isNil`,
truthiness and `Number.isFinite`). -/
inductive JsNum where
  | null : JsNum
  | num : Int → JsNum
  | nan : JsNum
  | inf : JsNum
  | negInf : JsNum
deriving DecidableEq, Repr

/-- lodash `isNil`. -/
def JsNum.isNil : JsNum → Bool
  | .null => true
  | _ => false

/-- `Number.isFinite` (false on non-numbers such as null/undefined). -/
def JsNum.isFinite : JsNum → Bool
  | .num _ => true
  | _ => false

/-- JavaScript truthiness of such a value (`0` and `NaN` are falsy). -/
def JsNum.truthy : JsNum → Bool
  | .null => false
  | .num n => n != 0
  | .nan => false
  | .inf => true
  | .negInf => true

/-- `lifespan > 0` on the JS value (comparisons with NaN are false;
`null > 0` is false, `Infinity > 0` is true). -/
def JsNum.gtZero : JsNum → Bool
  | .num n => 0 < n
  | .inf => true
  | _ => false

/-- A JavaScript value in the `accessKey` position of the attributes:
a string, `undefined` (key present but valueless), or any other
non-string value. -/
inductive JsVal where
  | str : String → JsVal
  | undef : JsVal
  | other : JsVal
deriving DecidableEq, Repr

/-- `typeof v === 'string'`. -/
def JsVal.isStr : JsVal → Bool
  | .str _ => true
  | _ => false

/-- lodash fp `uniq` (keeps the first occurrence of each element, in
order), written with an accumulator of already-seen elements. -/
def lodashUniqAux (seen : List String) : List String → List String
  | [] => []
  | a :: rest =>
      if a ∈ seen then lodashUniqAux seen rest
      else a :: lodashUniqAux (a :: seen) rest

/-- lodash fp `uniq`. -/
def lodashUniq (xs : List String) : List String := lodashUniqAux [] xs

/-- lodash fp `difference xs ys`: the elements of `xs` not contained in
`ys` (order of `xs` preserved, duplicates of `xs` kept). -/
def lodashDifference (xs ys : List String) : List String :=
  xs.filter (fun a => decide (a ∉ ys))

/-- `Array.prototype.join(', ')`. -/
def joinComma (xs : List String) : String := String.intercalate ", " xs

/-- `validateAccessKey` (src part_000 l.73-78): Node `assert` that the
candidate is a string of length ≥ 15; returns it unchanged. A failing
`assert` raises an `AssertionError` (constructor `TokenError.assertion`),
not a `ValidationError`. -/
def validateAccessKey (accessKey : JsVal) : Except TokenError String :=
  match accessKey with
  | .str s =>
      if s.length ≥ 15 then .ok s
      else .error (.assertion "Access key needs to have at least 15 characters")
  | _ => .error (.assertion "Access key needs to be a string")

/-- `getExpirationFields` (src part_000 l.302-315): `lifespan` must be nil
or a finite number > 0; returns the pair (lifespan column, expiresAt
column). `lifespan || null` collapses falsy values to null and
`expiresAt` is `Date.now() + lifespan` when lifespan is truthy. -/
def getExpirationFields (lifespan : JsNum) (now : Int) :
    Except TokenError (Option Int × Option Int) :=
  let isValidNumber := lifespan.isFinite && lifespan.gtZero
  if !isValidNumber && !lifespan.isNil then
    .error (.validation "lifespan must be a positive number or null")
  else
    .ok
      ((match lifespan with | .num n => if n ≠ 0 then some n else none | _ => none),
       (match lifespan with | .num n => if n ≠ 0 then some (now + n) else none | _ => none))

/-- `assertValidLifespan` (src part_000 l.384-395): no-op when the
lifespan is nil, otherwise it must be one of the configured
`TRANSFER_TOKEN_LIFESPANS` values (passed here as `allowed`). -/
def assertValidLifespan (allowed : List Int) (lifespan : JsNum) :
    Except TokenError Unit :=
  if lifespan.isNil then .ok ()
  else if (match lifespan with | .num n => decide (n ∈ allowed) | _ => false) then .ok ()
  else
    .error (.validation
      ("lifespan must be one of the following values: \n      "
        ++ joinComma (allowed.map toString)))

/-- A persisted `transfer-token` row. Nullable columns are `Option`;
`accessKey` is the stored (hashed) secret column. The store-managed
`createdAt`/`updatedAt` bookkeeping columns of `SELECT_FIELDS` are
elided (they are set by the external store, never by this module). -/
structure StoredToken where
  id : Nat
  name : Option String
  description : Option String
  lastUsedAt : Option Int
  lifespan : Option Int
  expiresAt : Option Int
  accessKey : String
deriving DecidableEq, Repr

/-- A persisted `transfer-token-permission` row (`id`, `action`, and the
owning token's id). -/
structure StoredPerm where
  id : Nat
  action : String
  token : Nat
deriving DecidableEq, Repr

/-- The persistence layer's state: the two tables plus id counters. -/
structure DB where
  tokens : List StoredToken
  perms : List StoredPerm
  nextTokenId : Nat
  nextPermId : Nat
deriving DecidableEq, Repr

/-- The caller-supplied attributes object (`TokenUpdatePayload`).
`none` in a field means the key is absent from the object; the
`lifespan` value and the `accessKey` value keep their JS runtime
representation so the code's dynamic checks can be modelled. -/
structure TokenUpdatePayload where
  name : Option String := none
  description : Option String := none
  lastUsedAt : Option Int := none
  lifespan : Option JsNum := none
  permissions : Option (List String) := none
  accessKey : Option JsVal := none
deriving DecidableEq, Repr

/-- Reading `attributes.lifespan`: an absent key reads as `undefined`,
which `isNil`, truthiness and `Number.isFinite` treat like null. -/
def TokenUpdatePayload.lifespanVal (attrs : TokenUpdatePayload) : JsNum :=
  attrs.lifespan.getD .null

/-- The projection performed by `SELECT_FIELDS` (src part_000 l.38-47):
every scalar column except the stored `accessKey` hash. -/
structure SanitizedRow where
  id : Nat
  name : Option String
  description : Option String
  lastUsedAt : Option Int
  lifespan : Option Int
  expiresAt : Option Int
deriving DecidableEq, Repr

/-- Apply the `SELECT_FIELDS` projection to a stored row. -/
def selectFields (t : StoredToken) : SanitizedRow :=
  { id := t.id, name := t.name, description := t.description,
    lastUsedAt := t.lastUsedAt, lifespan := t.lifespan,
    expiresAt := t.expiresAt }

/-- A sanitized token as returned by the read and update paths: the
selected scalar columns plus the permissions flattened to their action
strings (`flattenTokenPermissions`). -/
structure TokenWithPerms where
  row : SanitizedRow
  permissions : List String
deriving DecidableEq, Repr

/-- Result of `create`: the selected columns, the flattened permission
actions, and the plaintext `accessKey` spread into the result. -/
structure CreatedToken where
  row : SanitizedRow
  permissions : List String
  accessKey : String
deriving DecidableEq, Repr

/-- Result of `regenerate`: the row was re-read with
`select: ['id', 'accessKey']` and the stored hash is then overwritten by
the plaintext in the returned object, leaving `id` plus the plaintext. -/
structure RegeneratedToken where
  id : Nat
  accessKey : String
deriving DecidableEq, Repr

/-- `entityService.load(.., token, 'permissions')`: the permission rows
owned by the token. -/
def loadPerms (db : DB) (tokenId : Nat) : List StoredPerm :=
  db.perms.filter (fun p => p.token == tokenId)

/-- Data written by the token-creation query (the object literal at src
part_000 l.104-108 after spreading). -/
structure TokenData where
  name : Option String
  description : Option String
  lastUsedAt : Option Int
  accessKey : String
  lifespan : Option Int
  expiresAt : Option Int
deriving DecidableEq, Repr

/-- `strapi.query(TRANSFER_TOKEN_UID).create`: insert a fresh row. -/
def dbCreateToken (db : DB) (d : TokenData) : StoredToken × DB :=
  let t : StoredToken :=
    { id := db.nextTokenId, name := d.name, description := d.description,
      lastUsedAt := d.lastUsedAt, lifespan := d.lifespan,
      expiresAt := d.expiresAt, accessKey := d.accessKey }
  (t, { db with tokens := db.tokens ++ [t], nextTokenId := db.nextTokenId + 1 })

/-- Data written by a token-update query: only the keys present in the
spread object are written. `lifespan := some none` writes SQL null. -/
structure TokenUpdateData where
  name : Option String := none
  description : Option String := none
  lastUsedAt : Option Int := none
  lifespan : Option (Option Int) := none
  accessKey : Option String := none
deriving DecidableEq, Repr

/-- Write the present keys of `d` over the columns of `t`. -/
def applyUpdate (d : TokenUpdateData) (t : StoredToken) : StoredToken :=
  { t with
    name := (match d.name with | some s => some s | none => t.name),
    description := (match d.description with | some s => some s | none => t.description),
    lastUsedAt := (match d.lastUsedAt with | some v => some v | none => t.lastUsedAt),
    lifespan := (match d.lifespan with | some v => v | none => t.lifespan),
    accessKey := (match d.accessKey with | some s => s | none => t.accessKey) }

/-- `strapi.query(TRANSFER_TOKEN_UID).update({ where: { id }, data })`:
update the matching row and return it, or return null (`none`) and leave
the store untouched when no row matches. -/
def dbUpdateToken (db : DB) (id : Nat) (d : TokenUpdateData) :
    Option StoredToken × DB :=
  match db.tokens.find? (fun t => t.id == id) with
  | none => (none, db)
  | some t =>
      (some (applyUpdate d t),
       { db with tokens :=
          db.tokens.map (fun u => if u.id == id then applyUpdate d u else u) })

/-- `strapi.query(TRANSFER_TOKEN_PERMISSION_UID).create({ data })`:
insert a permission row for the token. -/
def dbCreatePerm (db : DB) (action : String) (tokenId : Nat) : DB :=
  { db with
    perms := db.perms ++ [{ id := db.nextPermId, action := action, token := tokenId }],
    nextPermId := db.nextPermId + 1 }

/-- `strapi.query(TRANSFER_TOKEN_PERMISSION_UID).delete({ where })`:
delete the first row matching the action/token pair (the adapter deletes
the record found by the where clause). -/
def dbDeletePerm (db : DB) (action : String) (tokenId : Nat) : DB :=
  { db with
    perms := db.perms.eraseP (fun p => p.action == action && p.token == tokenId) }

/-- `hash` (src part_000 l.320-331): requires a configured salt, then
returns the keyed digest `hmac salt accessKey`. -/
def hash (hmac : String → String → String) (salt : Option String)
    (accessKey : String) : Except TokenError String :=
  match salt with
  | none => .error (.typeError "Required token salt is not defined")
  | some s => .ok (hmac s accessKey)

/-- `assertTokenPermissionsValidity` (src part_000 l.369-379): every
requested action must be in the registry; on failure the
ValidationError message joins all offending actions. A missing
`permissions` key reads as `undefined`, which lodash `difference`
treats as the empty list. -/
def assertTokenPermissionsValidity (registry : List String)
    (attrs : TokenUpdatePayload) : Except TokenError Unit :=
  let invalidPermissions := lodashDifference (attrs.permissions.getD []) registry
  if invalidPermissions.isEmpty then .ok ()
  else .error (.validation ("Unknown permissions provided: " ++ joinComma invalidPermissions))

/-- The permission reconciliation computed inside `update` (src part_000
l.169-174): de-duplicate the desired list, then
`actionsToAdd = difference newPermissions currentPermissions` and
`actionsToDelete = difference currentPermissions newPermissions`.
Returned as `(actionsToAdd, actionsToDelete)`. -/
def diffPermissions (current desired : List String) :
    List String × List String :=
  let newPermissions := lodashUniq desired
  (lodashDifference newPermissions current, lodashDifference current newPermissions)

/-- `create` (src part_000 l.89-134). Returns the operation's result,
the caller's attributes object as it stands after the call (the code
mutates it with `delete attributes.accessKey`), and the final store
state. The access key is determined (validated or freshly generated)
before the `delete`; permission and lifespan validation follow; the
writes happen inside one transaction, and `hash` is evaluated while the
`data` object is built, before `getExpirationFields`. -/
def create (registry : List String) (allowed : List Int)
    (hmac : String → String → String) (salt : Option String)
    (randomKey : String) (now : Int)
    (attrs : TokenUpdatePayload) (db : DB) :
    Except TokenError CreatedToken × TokenUpdatePayload × DB :=
  match (match attrs.accessKey with
         | some v => validateAccessKey v
         | none => Except.ok randomKey) with
  | .error e => (.error e, attrs, db)
  | .ok accessKey =>
    let attrs := { attrs with accessKey := none }
    match assertTokenPermissionsValidity registry attrs with
    | .error e => (.error e, attrs, db)
    | .ok _ =>
      match assertValidLifespan allowed attrs.lifespanVal with
      | .error e => (.error e, attrs, db)
      | .ok _ =>
        match hash hmac salt accessKey with
        | .error e => (.error e, attrs, db)
        | .ok digest =>
          match getExpirationFields attrs.lifespanVal now with
          | .error e => (.error e, attrs, db)
          | .ok expiration =>
            let created := dbCreateToken db
              { name := attrs.name, description := attrs.description,
                lastUsedAt := attrs.lastUsedAt, accessKey := digest,
                lifespan := expiration.1, expiresAt := expiration.2 }
            let db2 := (lodashUniq (attrs.permissions.getD [])).foldl
              (fun d action => dbCreatePerm d action created.1.id) created.2
            let currentPermissions := loadPerms db2 created.1.id
            (.ok { row := selectFields created.1,
                   permissions := currentPermissions.map (fun p => p.action),
                   accessKey := accessKey },
             attrs, db2)

/-- The `data` object of the token-update query in `update`
(src part_000 l.157-159): `omit('permissions', attributes)` — every key
of the payload except `permissions`, including a caller-supplied
`accessKey`, is passed through to the store. The payload type declares
`accessKey?: string`, so only a string value is given a column
encoding; lifespans that reach a write are nil or registered finite
values, encoded by their integer (non-finite values never reach the
store: they fail `assertValidLifespan` first). -/
def updateDataOf (attrs : TokenUpdatePayload) : TokenUpdateData :=
  { name := attrs.name, description := attrs.description,
    lastUsedAt := attrs.lastUsedAt,
    lifespan := attrs.lifespan.map (fun v => match v with | .num n => some n | _ => none),
    accessKey := match attrs.accessKey with | some (.str s) => some s | _ => none }

/-- `update` (src part_000 l.139-209): look the token up (NotFound if
absent), validate permissions then lifespan, then inside one
transaction write the scalar columns, reconcile the permission rows if
the `permissions` key was provided (an empty array is truthy and enters
the branch), and return the selected columns with the re-read
permission actions. -/
def update (registry : List String) (allowed : List Int)
    (id : Nat) (attrs : TokenUpdatePayload) (db : DB) :
    Except TokenError TokenWithPerms × DB :=
  match db.tokens.find? (fun t => t.id == id) with
  | none => (.error (.notFound "Token not found"), db)
  | some _ =>
    match assertTokenPermissionsValidity registry attrs with
    | .error e => (.error e, db)
    | .ok _ =>
      match assertValidLifespan allowed attrs.lifespanVal with
      | .error e => (.error e, db)
      | .ok _ =>
        match dbUpdateToken db id (updateDataOf attrs) with
        | (none, db1) => (.error (.notFound "Token not found"), db1)
        | (some updatedToken, db1) =>
          let db2 :=
            match attrs.permissions with
            | none => db1
            | some desired =>
              let currentPermissions :=
                (loadPerms db1 updatedToken.id).map (fun p => p.action)
              let actions := diffPermissions currentPermissions desired
              let dbA := actions.2.foldl (fun d action => dbDeletePerm d action id) db1
              actions.1.foldl (fun d action => dbCreatePerm d action id) dbA
          let permissionsFromDb := loadPerms db2 updatedToken.id
          (.ok { row := selectFields updatedToken,
                 permissions := permissionsFromDb.map (fun p => p.action) },
           db2)

/-- `revoke` (src part_000 l.214-220): delete the row matching the id
(first match) and return its sanitized snapshot, or null when absent. -/
def revoke (id : Nat) (db : DB) : Option TokenWithPerms × DB :=
  match db.tokens.find? (fun t => t.id == id) with
  | none => (none, db)
  | some t =>
      (some { row := selectFields t,
              permissions := (loadPerms db t.id).map (fun p => p.action) },
       { db with tokens := db.tokens.eraseP (fun u => u.id == t.id) })

/-- The `whereParams` accepted by `getBy`/`exists`. -/
structure WhereParams where
  id : Option Nat := none
  name : Option String := none
  lastUsedAt : Option Int := none
  description : Option String := none
  accessKey : Option String := none
deriving DecidableEq, Repr

/-- `Object.keys(whereParams).length === 0`. -/
def WhereParams.isEmpty (w : WhereParams) : Bool :=
  w.id.isNone && w.name.isNone && w.lastUsedAt.isNone
    && w.description.isNone && w.accessKey.isNone

/-- Whether a stored row matches every present where-clause key. -/
def matchesWhere (w : WhereParams) (t : StoredToken) : Bool :=
  (match w.id with | none => true | some i => t.id == i)
    && (match w.name with | none => true | some n => t.name == some n)
    && (match w.lastUsedAt with | none => true | some v => t.lastUsedAt == some v)
    && (match w.description with | none => true | some d => t.description == some d)
    && (match w.accessKey with | none => true | some k => t.accessKey == k)

/-- `getBy` (src part_000 l.225-247): null on an empty where object,
otherwise `findOne` with `SELECT_FIELDS` and populated permissions,
flattened to action strings. -/
def getBy (w : WhereParams) (db : DB) : Option TokenWithPerms :=
  if w.isEmpty then none
  else
    match db.tokens.find? (matchesWhere w) with
    | none => none
    | some t =>
        some { row := selectFields t,
               permissions := (loadPerms db t.id).map (fun p => p.action) }

/-- `getById` (src part_000 l.252-254). -/
def getById (id : Nat) (db : DB) : Option TokenWithPerms :=
  getBy { id := some id } db

/-- `getByName` (src part_000 l.259-261). -/
def getByName (name : String) (db : DB) : Option TokenWithPerms :=
  getBy { name := some name } db

/-- `exists` (src part_000 l.266-278). -/
def tokenExists (w : WhereParams) (db : DB) : Bool :=
  (getBy w db).isSome

/-- `regenerate` (src part_000 l.280-300): hash a fresh random key (the
hash is computed while building the update's `data`, so a missing salt
fails first), update only the `accessKey` column of the matching row,
raise NotFound when the update matched nothing, and return the row's id
with the plaintext spread over the stored hash. -/
def regenerate (hmac : String → String → String) (salt : Option String)
    (randomKey : String) (id : Nat) (db : DB) :
    Except TokenError RegeneratedToken × DB :=
  match hash hmac salt randomKey with
  | .error e => (.error e, db)
  | .ok digest =>
    match dbUpdateToken db id { accessKey := some digest } with
    | (none, db1) => (.error (.notFound "The provided token id does not exist"), db1)
    | (some t, db1) => (.ok { id := t.id, accessKey := randomKey }, db1)

/-- Comparison used by `orderBy: { name: 'ASC' }` (null names first). -/
def nameLe (a b : Option String) : Bool :=
  match a, b with
  | none, _ => true
  | some _, none => false
  | some x, some y => x ≤ y

/-- Insertion sort by ascending name (the store's `orderBy`). -/
def insertByName (t : StoredToken) : List StoredToken → List StoredToken
  | [] => [t]
  | u :: rest =>
      if nameLe t.name u.name then t :: u :: rest
      else u :: insertByName t rest

/-- Sort the token rows by ascending name. -/
def sortByName (ts : List StoredToken) : List StoredToken :=
  ts.foldr insertByName []

/-- `list` (src part_000 l.54-63): all tokens ordered by name with
`SELECT_FIELDS` and their permissions flattened to action strings. -/
def list (db : DB) : List TokenWithPerms :=
  (sortByName db.tokens).map (fun t =>
    { row := selectFields t,
      permissions := (loadPerms db t.id).map (fun p => p.action) })

/-- Replace every stored token's `accessKey` column according to `f`
(used to state that read paths are independent of the stored hash). -/
def scrubAccessKeys (f : StoredToken → String) (db : DB) : DB :=
  { db with tokens := db.tokens.map (fun t => { t with accessKey := f t }) }

/-- Whether a service result is a success. -/
def isOkRes {α : Type} (r : Except TokenError α) : Bool :=
  match r with
  | .ok _ => true
  | .error _ => false

/-- Whether a service result failed with a `ValidationError`. -/
def isValidationFailure {α : Type} (r : Except TokenError α) : Bool :=
  match r with
  | .error (.validation _) => true
  | _ => false

/-- A sample stored token used by concrete witnesses. -/
def sampleToken : StoredToken :=
  { id := 1, name := some "t", description := none, lastUsedAt := none,
    lifespan := some 5, expiresAt := some 100, accessKey := "storedhash" }

/-- A sample store holding `sampleToken` with two permission rows. -/
def sampleDB : DB :=
  { tokens := [sampleToken],
    perms := [{ id := 1, action := "push", token := 1 },
              { id := 2, action := "pull", token := 1 }],
    nextTokenId := 2, nextPermId := 3 }

/-- A sample keyed-hash collaborator used by concrete witnesses. -/
def sampleHmac : String → String → String :=
  fun saltKey msg => "H(" ++ saltKey ++ "|" ++ msg ++ ")"

/-! ### Basic lemmas about the lodash list helpers -/

theorem mem_lodashUniqAux (a : String) (xs : List String) :
    ∀ seen, a ∈ lodashUniqAux seen xs ↔ a ∈ xs ∧ a ∉ seen := by
  induction xs with
  | nil => intro seen; simp [lodashUniqAux]
  | cons b rest ih =>
    intro seen
    by_cases hb : b ∈ seen
    · by_cases hab : a = b
      · subst hab; simp [lodashUniqAux, ih, hb]
      · simp [lodashUniqAux, ih, hb, hab]
    · by_cases hab : a = b
      · subst hab; simp [lodashUniqAux, ih, hb]
      · simp [lodashUniqAux, ih, hb, hab]

theorem mem_lodashUniq (a : String) (xs : List String) :
    a ∈ lodashUniq xs ↔ a ∈ xs := by
  simp [lodashUniq, mem_lodashUniqAux]

theorem mem_lodashDifference (a : String) (xs ys : List String) :
    a ∈ lodashDifference xs ys ↔ a ∈ xs ∧ a ∉ ys := by
  simp [lodashDifference]

theorem lodashDifference_nil (xs : List String) :
    lodashDifference xs [] = xs := by
  simp [lodashDifference]

theorem lodashDifference_eq_nil_of_subset (xs ys : List String)
    (h : ∀ a, a ∈ xs → a ∈ ys) : lodashDifference xs ys = [] := by
  simp only [lodashDifference, List.filter_eq_nil_iff]
  intro a ha
  simpa using h a ha

theorem lodashDifference_uniq_self (xs : List String) :
    lodashDifference (lodashUniq xs) xs = [] :=
  lodashDifference_eq_nil_of_subset _ _ (fun a ha => (mem_lodashUniq a xs).mp ha)

theorem lodashDifference_self_uniq (xs : List String) :
    lodashDifference xs (lodashUniq xs) = [] :=
  lodashDifference_eq_nil_of_subset _ _ (fun a ha => (mem_lodashUniq a xs).mpr ha)

theorem isEmpty_false_of_mem {a : String} {l : List String} (h : a ∈ l) :
    l.isEmpty = false := by
  cases l with
  | nil => cases h
  | cons b t => rfl

/-! ### C6: expiration resolution -/

/-- C6: `getExpirationFields` returns `(null, null)` when the lifespan is
null or absent, `(lifespan, now + lifespan)` when it is a finite number
greater than 0, and fails with
`ValidationError "lifespan must be a positive number or null"` for every
other input (zero, negative, or non-finite). -/
theorem C6_getExpirationFields (now n : Int) :
    getExpirationFields .null now = .ok (none, none) ∧
    (0 < n → getExpirationFields (.num n) now = .ok (some n, some (now + n))) ∧
    (n ≤ 0 → getExpirationFields (.num n) now
      = .error (.validation "lifespan must be a positive number or null")) ∧
    getExpirationFields .nan now
      = .error (.validation "lifespan must be a positive number or null") ∧
    getExpirationFields .inf now
      = .error (.validation "lifespan must be a positive number or null") ∧
    getExpirationFields .negInf now
      = .error (.validation "lifespan must be a positive number or null") := by
  refine ⟨rfl, ?_, ?_, rfl, rfl, rfl⟩
  · intro h
    have hne : n ≠ 0 := by omega
    simp [getExpirationFields, JsNum.isFinite, JsNum.gtZero, JsNum.isNil, h, hne]
  · intro h
    have h2 : ¬ (0 : Int) < n := by omega
    simp [getExpirationFields, JsNum.isFinite, JsNum.gtZero, JsNum.isNil, h2]

/-- Witness for C6 at lifespan 7 (valid) and -3 (rejected). -/
theorem C6_getExpirationFields_witness :
    (0 : Int) < 7 ∧ getExpirationFields (.num 7) 100 = .ok (some 7, some 107) ∧
    (-3 : Int) ≤ 0 ∧ getExpirationFields (.num (-3)) 100
      = .error (.validation "lifespan must be a positive number or null") :=
  ⟨by norm_num, (C6_getExpirationFields 100 7).2.1 (by norm_num),
   by norm_num, (C6_getExpirationFields 100 (-3)).2.2.1 (by norm_num)⟩

/-! ### C8: access-key validation -/

/-- C8 counterexample: on the 5-character string "short",
`validateAccessKey` does fail, but with the `AssertionError` raised by
Node's `assert`, not with a `ValidationError` as the claim states. -/
theorem C8_counterexample :
    isOkRes (validateAccessKey (.str "short")) = false ∧
    isValidationFailure (validateAccessKey (.str "short")) = false ∧
    validateAccessKey (.str "short")
      = .error (.assertion "Access key needs to have at least 15 characters") :=
  ⟨rfl, rfl, rfl⟩

/-- C8 amended: for every string of length at least 15 the candidate is
returned unchanged; shorter strings and non-string candidates fail with
an `AssertionError` (from Node `assert`), not a `ValidationError`. -/
theorem C8_validateAccessKey (s : String) (v : JsVal) :
    (15 ≤ s.length → validateAccessKey (.str s) = .ok s) ∧
    (s.length < 15 → validateAccessKey (.str s)
      = .error (.assertion "Access key needs to have at least 15 characters")) ∧
    (v.isStr = false → validateAccessKey v
      = .error (.assertion "Access key needs to be a string")) := by
  refine ⟨?_, ?_, ?_⟩
  · intro h
    simp [validateAccessKey, h]
  · intro h
    have h2 : ¬ 15 ≤ s.length := by omega
    simp [validateAccessKey, h2]
  · intro h
    cases v with
    | str s => simp [JsVal.isStr] at h
    | undef => rfl
    | other => rfl

/-- Witness for C8 amended: a 16-character key is accepted verbatim and
`undefined` is rejected as a non-string. -/
theorem C8_validateAccessKey_witness :
    15 ≤ "0123456789abcdef".length ∧
    validateAccessKey (.str "0123456789abcdef") = .ok "0123456789abcdef" ∧
    JsVal.isStr .undef = false ∧
    validateAccessKey .undef
      = .error (.assertion "Access key needs to be a string") :=
  ⟨by decide, (C8_validateAccessKey "0123456789abcdef" .undef).1 (by decide),
   rfl, (C8_validateAccessKey "0123456789abcdef" .undef).2.2 rfl⟩

/-! ### C9: lifespan enumeration check -/

/-- C9: `assertValidLifespan` is a no-op when the supplied lifespan is
null or absent, and otherwise fails with a `ValidationError` unless the
lifespan is a member of the configured `TRANSFER_TOKEN_LIFESPANS`
values (the `allowed` list). -/
theorem C9_assertValidLifespan (allowed : List Int) (ls : JsNum) (n : Int) :
    (ls.isNil = true → assertValidLifespan allowed ls = .ok ()) ∧
    (ls = .num n → n ∈ allowed → assertValidLifespan allowed ls = .ok ()) ∧
    (ls = .num n → n ∉ allowed → assertValidLifespan allowed ls
      = .error (.validation ("lifespan must be one of the following values: \n      "
          ++ joinComma (allowed.map toString)))) ∧
    ((ls = .nan ∨ ls = .inf ∨ ls = .negInf) → assertValidLifespan allowed ls
      = .error (.validation ("lifespan must be one of the following values: \n      "
          ++ joinComma (allowed.map toString)))) := by
  refine ⟨?_, ?_, ?_, ?_⟩
  · intro h
    cases ls <;> simp_all [JsNum.isNil, assertValidLifespan]
  · intro h hmem
    subst h
    simp [assertValidLifespan, JsNum.isNil, hmem]
  · intro h hmem
    subst h
    simp [assertValidLifespan, JsNum.isNil, hmem]
  · rintro (h | h | h) <;> subst h <;> rfl

/-- Witness for C9 with the 7-day lifespan allowed: null and 604800000
pass, 5 is rejected with a ValidationError. -/
theorem C9_assertValidLifespan_witness :
    JsNum.isNil .null = true ∧
    assertValidLifespan [604800000] .null = .ok () ∧
    (604800000 : Int) ∈ [(604800000 : Int)] ∧
    assertValidLifespan [604800000] (.num 604800000) = .ok () ∧
    (5 : Int) ∉ [(604800000 : Int)] ∧
    assertValidLifespan [604800000] (.num 5)
      = .error (.validation ("lifespan must be one of the following values: \n      "
          ++ joinComma ([(604800000 : Int)].map toString))) :=
  ⟨rfl, (C9_assertValidLifespan [604800000] .null 0).1 rfl,
   by decide, (C9_assertValidLifespan [604800000] (.num 604800000) 604800000).2.1 rfl (by decide),
   by decide, (C9_assertValidLifespan [604800000] (.num 5) 5).2.2.1 rfl (by decide)⟩

/-! ### Store-level frame lemmas -/

theorem applyUpdate_id (d : TokenUpdateData) (t : StoredToken) :
    (applyUpdate d t).id = t.id := rfl

theorem applyUpdate_expiresAt (d : TokenUpdateData) (t : StoredToken) :
    (applyUpdate d t).expiresAt = t.expiresAt := rfl

theorem find?_token_id {db : DB} {id : Nat} {t : StoredToken}
    (h : db.tokens.find? (fun u => u.id == id) = some t) : t.id = id := by
  have := List.find?_some h
  simpa using this

theorem loadPerms_tokens_irrel (db : DB) (ts : List StoredToken) (i : Nat) :
    loadPerms { db with tokens := ts } i = loadPerms db i := rfl

theorem foldl_dbCreatePerm_tokens (i : Nat) (actions : List String) :
    ∀ db : DB, (actions.foldl (fun d a => dbCreatePerm d a i) db).tokens = db.tokens := by
  induction actions with
  | nil => intro db; rfl
  | cons a rest ih =>
    intro db
    rw [List.foldl_cons, ih]
    rfl

theorem foldl_dbDeletePerm_tokens (i : Nat) (actions : List String) :
    ∀ db : DB, (actions.foldl (fun d a => dbDeletePerm d a i) db).tokens = db.tokens := by
  induction actions with
  | nil => intro db; rfl
  | cons a rest ih =>
    intro db
    rw [List.foldl_cons, ih]
    rfl

theorem foldl_dbDeletePerm_perms (i : Nat) (actions : List String) :
    ∀ db : DB, (actions.foldl (fun d a => dbDeletePerm d a i) db).perms
      = actions.foldl (fun ps a => ps.eraseP (fun q => q.action == a && q.token == i)) db.perms := by
  induction actions with
  | nil => intro db; rfl
  | cons a rest ih =>
    intro db
    rw [List.foldl_cons, List.foldl_cons, ih]
    rfl

theorem foldl_eraseP_skip (i : Nat) (p : StoredPerm) (hp : (p.token == i) = false)
    (actions : List String) :
    ∀ P : List StoredPerm,
      actions.foldl (fun ps a => ps.eraseP (fun q => q.action == a && q.token == i)) (p :: P)
        = p :: actions.foldl (fun ps a => ps.eraseP (fun q => q.action == a && q.token == i)) P := by
  induction actions with
  | nil => intro P; rfl
  | cons a rest ih =>
    intro P
    rw [List.foldl_cons, List.foldl_cons]
    have herase : (p :: P).eraseP (fun q => q.action == a && q.token == i)
        = p :: P.eraseP (fun q => q.action == a && q.token == i) := by
      simp [List.eraseP_cons, hp]
    rw [herase, ih]

/-- Deleting, one action at a time, every action currently owned by
token `i` removes exactly the permission rows of token `i`. -/
theorem foldl_erase_all (i : Nat) :
    ∀ P : List StoredPerm,
      ((P.filter (fun p => p.token == i)).map (fun p => p.action)).foldl
          (fun ps a => ps.eraseP (fun q => q.action == a && q.token == i)) P
        = P.filter (fun p => !(p.token == i)) := by
  intro P
  induction P with
  | nil => rfl
  | cons p rest ih =>
    by_cases hp : (p.token == i) = true
    · have hfilter : (p :: rest).filter (fun q => q.token == i)
          = p :: rest.filter (fun q => q.token == i) := by
        simp [List.filter_cons, hp]
      have herase : (p :: rest).eraseP (fun q => q.action == p.action && q.token == i)
          = rest := by
        simp [List.eraseP_cons, hp]
      have hfilter2 : (p :: rest).filter (fun q => !(q.token == i))
          = rest.filter (fun q => !(q.token == i)) := by
        simp [List.filter_cons, hp]
      rw [hfilter, List.map_cons, List.foldl_cons, herase, ih, hfilter2]
    · have hp' : (p.token == i) = false := by simpa using hp
      have hfilter : (p :: rest).filter (fun q => q.token == i)
          = rest.filter (fun q => q.token == i) := by
        simp [List.filter_cons, hp']
      have hfilter2 : (p :: rest).filter (fun q => !(q.token == i))
          = p :: rest.filter (fun q => !(q.token == i)) := by
        simp [List.filter_cons, hp']
      rw [hfilter, foldl_eraseP_skip i p hp', ih, hfilter2]

/-! ### C3: update on a missing id -/

/-- C3: `update` on an id with no existing token fails with
`NotFoundError` and leaves the store untouched (the existence lookup
precedes validation and the transaction). -/
theorem C3_update_not_found (registry : List String) (allowed : List Int)
    (id : Nat) (attrs : TokenUpdatePayload) (db : DB)
    (h : db.tokens.find? (fun t => t.id == id) = none) :
    update registry allowed id attrs db = (.error (.notFound "Token not found"), db) := by
  simp [update, h]

/-- Witness for C3: id 9 is absent from the sample store. -/
theorem C3_update_not_found_witness :
    sampleDB.tokens.find? (fun t => t.id == 9) = none ∧
    update [] [] 9 {} sampleDB = (.error (.notFound "Token not found"), sampleDB) :=
  ⟨rfl, C3_update_not_found [] [] 9 {} sampleDB rfl⟩

/-! ### C7: the permission reconciler -/

/-- C7: the reconciler's `toAdd` is (as a set) the requested permissions
minus the current ones and `toRemove` is the current minus the
requested, the inputs being de-duplicated; `diff(X, X)` is empty in
both components, and an `update` whose requested permission list equals
the token's current actions issues no permission writes. -/
theorem C7_diffPermissions (current desired : List String) (a : String)
    (registry : List String) (allowed : List Int) (id : Nat)
    (attrs : TokenUpdatePayload) (db : DB) (t : StoredToken)
    (hfind : db.tokens.find? (fun u => u.id == id) = some t)
    (hperm : assertTokenPermissionsValidity registry attrs = .ok ())
    (hlife : assertValidLifespan allowed attrs.lifespanVal = .ok ())
    (hsame : attrs.permissions = some ((loadPerms db id).map (fun p => p.action))) :
    (a ∈ (diffPermissions current desired).1 ↔ a ∈ desired ∧ a ∉ current) ∧
    (a ∈ (diffPermissions current desired).2 ↔ a ∈ current ∧ a ∉ desired) ∧
    diffPermissions current current = ([], []) ∧
    (update registry allowed id attrs db).2.perms = db.perms := by
  have hid : t.id = id := find?_token_id hfind
  refine ⟨?_, ?_, ?_, ?_⟩
  · simp [diffPermissions, mem_lodashDifference, mem_lodashUniq]
  · simp [diffPermissions, mem_lodashDifference, mem_lodashUniq]
  · simp [diffPermissions, lodashDifference_uniq_self, lodashDifference_self_uniq]
  · simp only [update, hfind, hperm, hlife, dbUpdateToken, hsame]
    simp only [loadPerms_tokens_irrel, applyUpdate_id, hid]
    simp [diffPermissions, lodashDifference_uniq_self, lodashDifference_self_uniq]

/-- Witness for C7: the spec's example diff, a concrete `diff(X, X)`,
and a concrete update resubmitting the token's current actions that
leaves the permission table unchanged. -/
theorem C7_diffPermissions_witness :
    (diffPermissions ["a", "b", "c"] ["b", "c", "d"] = (["d"], ["a"])) ∧
    diffPermissions ["x", "y"] ["x", "y"] = ([], []) ∧
    (update ["push", "pull"] [] 1 { permissions := some ["push", "pull"] } sampleDB).2.perms
      = sampleDB.perms := by
  have h := C7_diffPermissions ["x", "y"] ["x", "y"] "x" ["push", "pull"] [] 1
    { permissions := some ["push", "pull"] } sampleDB sampleToken rfl rfl rfl rfl
  exact ⟨rfl, h.2.2.1, h.2.2.2⟩

/-! ### C2: unknown permission actions -/

/-- C2: a create or update whose requested permissions contain an
unknown action fails with a `ValidationError` whose message joins every
unknown action (each unknown action is a member of the joined list),
and the store is returned unchanged: the failure precedes any write.
For create, the access-key step (which precedes permission validation)
is assumed to succeed by taking no caller-supplied key; for update, the
id must exist, since the existence lookup precedes validation. -/
theorem C2_unknown_permissions (registry : List String) (allowed : List Int)
    (hmac : String → String → String) (salt : Option String)
    (randomKey : String) (now : Int) (id : Nat)
    (attrs : TokenUpdatePayload) (db : DB) (t : StoredToken)
    (ps : List String) (a : String)
    (hps : attrs.permissions = some ps)
    (hmem : a ∈ ps) (hbad : a ∉ registry) :
    a ∈ lodashDifference ps registry ∧
    (attrs.accessKey = none →
      create registry allowed hmac salt randomKey now attrs db
        = (.error (.validation ("Unknown permissions provided: "
            ++ joinComma (lodashDifference ps registry))),
           { attrs with accessKey := none }, db)) ∧
    (db.tokens.find? (fun u => u.id == id) = some t →
      update registry allowed id attrs db
        = (.error (.validation ("Unknown permissions provided: "
            ++ joinComma (lodashDifference ps registry))), db)) := by
  have hmemdiff : a ∈ lodashDifference ps registry :=
    (mem_lodashDifference a ps registry).mpr ⟨hmem, hbad⟩
  have hval : ∀ x : TokenUpdatePayload, x.permissions = some ps →
      assertTokenPermissionsValidity registry x
        = .error (.validation ("Unknown permissions provided: "
            ++ joinComma (lodashDifference ps registry))) := by
    intro x hx
    simp [assertTokenPermissionsValidity, hx, isEmpty_false_of_mem hmemdiff]
  refine ⟨hmemdiff, ?_, ?_⟩
  · intro hak
    have hx : ({ attrs with accessKey := none } : TokenUpdatePayload).permissions = some ps := hps
    simp only [create, hak, hval _ hx]
  · intro hfind
    simp only [update, hfind, hval attrs hps]

/-- Witness for C2: requesting `bad1` and `bad2` against the registry
`{push, pull}` rejects the update with both unknown actions listed. -/
theorem C2_unknown_permissions_witness :
    "bad1" ∈ ["bad1", "push", "bad2"] ∧ "bad1" ∉ ["push", "pull"] ∧
    update ["push", "pull"] [] 1 { permissions := some ["bad1", "push", "bad2"] } sampleDB
      = (.error (.validation "Unknown permissions provided: bad1, bad2"), sampleDB) := by
  have h := C2_unknown_permissions ["push", "pull"] [] sampleHmac (some "salt") "k" 0 1
    { permissions := some ["bad1", "push", "bad2"] } sampleDB sampleToken
    ["bad1", "push", "bad2"] "bad1" rfl (by simp) (by decide)
  exact ⟨by simp, by decide, h.2.2 rfl⟩

/-! ### C4: regenerate -/

/-- C4: with a configured salt, `regenerate` on an existing id rewrites
only the `accessKey` column of that row (every other column of every
row, the permission table and the id counters are unchanged, as the
store-map equation shows) and returns the token id with the new
plaintext secret; on a missing id it fails with `NotFoundError` and
leaves the store untouched. -/
theorem C4_regenerate (hmac : String → String → String) (sv : String)
    (randomKey : String) (id : Nat) (db : DB) (t : StoredToken) :
    (db.tokens.find? (fun u => u.id == id) = some t →
      regenerate hmac (some sv) randomKey id db
        = (.ok { id := t.id, accessKey := randomKey },
           { db with tokens := (db.tokens.map (fun u =>
              if u.id == id then { u with accessKey := hmac sv randomKey } else u)) })) ∧
    (db.tokens.find? (fun u => u.id == id) = none →
      regenerate hmac (some sv) randomKey id db
        = (.error (.notFound "The provided token id does not exist"), db)) := by
  constructor
  · intro h
    simp only [regenerate, hash, dbUpdateToken, h]
    rfl
  · intro h
    simp only [regenerate, hash, dbUpdateToken, h]

/-- Witness for C4 on the sample store: id 1 exists (only its stored
hash changes and the plaintext is returned), id 9 does not. -/
theorem C4_regenerate_witness :
    sampleDB.tokens.find? (fun u => u.id == 1) = some sampleToken ∧
    regenerate sampleHmac (some "salt") "newkey" 1 sampleDB
      = (.ok { id := 1, accessKey := "newkey" },
         { sampleDB with
            tokens := [{ sampleToken with accessKey := sampleHmac "salt" "newkey" }] }) ∧
    sampleDB.tokens.find? (fun u => u.id == 9) = none ∧
    regenerate sampleHmac (some "salt") "newkey" 9 sampleDB
      = (.error (.notFound "The provided token id does not exist"), sampleDB) := by
  have h1 := (C4_regenerate sampleHmac "salt" "newkey" 1 sampleDB sampleToken).1 rfl
  have h9 := (C4_regenerate sampleHmac "salt" "newkey" 9 sampleDB sampleToken).2 rfl
  exact ⟨rfl, h1, rfl, h9⟩

/-! ### C5: update frame effects -/

theorem map_expiresAt_update (d : TokenUpdateData) (id : Nat) (ts : List StoredToken) :
    ((ts.map (fun u => if u.id == id then applyUpdate d u else u)).map (fun u => u.expiresAt))
      = ts.map (fun u => u.expiresAt) := by
  rw [List.map_map]
  apply List.map_congr_left
  intro u _
  by_cases h : u.id = id
  · simp [h, applyUpdate_expiresAt]
  · simp [h]

theorem map_lifespan_update (d : TokenUpdateData) (id : Nat) (n : Int)
    (hd : d.lifespan = some (some n)) (ts : List StoredToken) :
    ((ts.map (fun u => if u.id == id then applyUpdate d u else u)).map (fun u => u.lifespan))
      = ts.map (fun u => if u.id == id then some n else u.lifespan) := by
  rw [List.map_map]
  apply List.map_congr_left
  intro u _
  by_cases h : u.id = id
  · simp [h, applyUpdate, hd]
  · simp [h]

theorem update_ok_tokens (registry : List String) (allowed : List Int)
    (id : Nat) (attrs : TokenUpdatePayload) (db : DB) (t : StoredToken)
    (hfind : db.tokens.find? (fun u => u.id == id) = some t)
    (hperm : assertTokenPermissionsValidity registry attrs = .ok ())
    (hlife : assertValidLifespan allowed attrs.lifespanVal = .ok ()) :
    (update registry allowed id attrs db).2.tokens
      = db.tokens.map (fun u => if u.id == id then applyUpdate (updateDataOf attrs) u else u) := by
  cases hp : attrs.permissions with
  | none => simp only [update, hfind, hperm, hlife, dbUpdateToken, hp]
  | some desired =>
    simp only [update, hfind, hperm, hlife, dbUpdateToken, hp]
    rw [foldl_dbCreatePerm_tokens, foldl_dbDeletePerm_tokens]

/-- C5: a successful `update` leaves the permission table untouched when
the `permissions` key is omitted; removes exactly the token's
permission rows when `permissions` is the empty list; never changes any
stored `expiresAt`; and, when a finite lifespan is supplied, writes
only its raw value into the targeted row's `lifespan` column. -/
theorem C5_update_frame (registry : List String) (allowed : List Int)
    (id : Nat) (attrs : TokenUpdatePayload) (db : DB) (t : StoredToken)
    (hfind : db.tokens.find? (fun u => u.id == id) = some t)
    (hperm : assertTokenPermissionsValidity registry attrs = .ok ())
    (hlife : assertValidLifespan allowed attrs.lifespanVal = .ok ()) :
    (attrs.permissions = none → (update registry allowed id attrs db).2.perms = db.perms) ∧
    (attrs.permissions = some [] →
      (update registry allowed id attrs db).2.perms
        = db.perms.filter (fun p => !(p.token == id))) ∧
    ((update registry allowed id attrs db).2.tokens.map (fun u => u.expiresAt)
      = db.tokens.map (fun u => u.expiresAt)) ∧
    (∀ n : Int, attrs.lifespan = some (.num n) →
      (update registry allowed id attrs db).2.tokens.map (fun u => u.lifespan)
        = db.tokens.map (fun u => if u.id == id then some n else u.lifespan)) := by
  have hid : t.id = id := find?_token_id hfind
  refine ⟨?_, ?_, ?_, ?_⟩
  · intro hp
    simp only [update, hfind, hperm, hlife, dbUpdateToken, hp]
  · intro hp
    simp only [update, hfind, hperm, hlife, dbUpdateToken, hp]
    simp only [loadPerms_tokens_irrel, applyUpdate_id, hid]
    simp only [diffPermissions, lodashUniq, lodashUniqAux, lodashDifference_nil]
    have hadd : lodashDifference [] ((loadPerms db id).map (fun p => p.action)) = [] := rfl
    rw [hadd, List.foldl_nil, foldl_dbDeletePerm_perms]
    exact foldl_erase_all id db.perms
  · rw [update_ok_tokens registry allowed id attrs db t hfind hperm hlife]
    exact map_expiresAt_update _ id db.tokens
  · intro n hn
    rw [update_ok_tokens registry allowed id attrs db t hfind hperm hlife]
    exact map_lifespan_update _ id n (by simp [updateDataOf, hn]) db.tokens

/-- Witness for C5 on the sample store: omitting `permissions` keeps the
two permission rows, `permissions := []` removes both, and an update
supplying lifespan 604800000 changes no `expiresAt`. -/
theorem C5_update_frame_witness :
    (update ["push"] [] 1 {} sampleDB).2.perms = sampleDB.perms ∧
    (update ["push"] [] 1 { permissions := some ([] : List String) } sampleDB).2.perms = [] ∧
    ((update ["push"] [604800000] 1 { lifespan := some (.num 604800000) } sampleDB).2.tokens.map
        (fun u => u.expiresAt) = [some 100]) ∧
    ((update ["push"] [604800000] 1 { lifespan := some (.num 604800000) } sampleDB).2.tokens.map
        (fun u => u.lifespan) = [some 604800000]) := by
  have h1 := C5_update_frame ["push"] [] 1 {} sampleDB sampleToken rfl rfl rfl
  have h2 := C5_update_frame ["push"] [] 1 { permissions := some ([] : List String) }
    sampleDB sampleToken rfl rfl rfl
  have h3 := C5_update_frame ["push"] [604800000] 1 { lifespan := some (.num 604800000) }
    sampleDB sampleToken rfl rfl rfl
  refine ⟨h1.1 rfl, ?_, ?_, ?_⟩
  · rw [h2.2.1 rfl]
    rfl
  · rw [h3.2.2.1]
    rfl
  · rw [h3.2.2.2 604800000 rfl]
    rfl

/-! ### Lemmas: read paths are independent of the stored accessKey -/

theorem map_accessKey_update (d : TokenUpdateData) (s : String)
    (hd : d.accessKey = some s) (id : Nat) (ts : List StoredToken) :
    ((ts.map (fun u => if u.id == id then applyUpdate d u else u)).map (fun u => u.accessKey))
      = ts.map (fun u => if u.id == id then s else u.accessKey) := by
  rw [List.map_map]
  apply List.map_congr_left
  intro u _
  by_cases h : u.id = id
  · simp [h, applyUpdate, hd]
  · simp [h]

theorem matchesWhere_scrub (w : WhereParams) (hw : w.accessKey = none)
    (t : StoredToken) (k : String) :
    matchesWhere w { t with accessKey := k } = matchesWhere w t := by
  simp [matchesWhere, hw]

theorem find?_scrub (f : StoredToken → String) (w : WhereParams)
    (hw : w.accessKey = none) :
    ∀ ts : List StoredToken,
      (ts.map (fun t => { t with accessKey := f t })).find? (matchesWhere w)
        = (ts.find? (matchesWhere w)).map (fun t => { t with accessKey := f t }) := by
  intro ts
  induction ts with
  | nil => rfl
  | cons t rest ih =>
    rw [List.map_cons]
    cases h : matchesWhere w t with
    | true =>
      rw [List.find?_cons_of_pos _ (by rw [matchesWhere_scrub w hw]; exact h),
        List.find?_cons_of_pos _ h]
      rfl
    | false =>
      rw [List.find?_cons_of_neg _ (by rw [matchesWhere_scrub w hw, h]; simp),
        List.find?_cons_of_neg _ (by rw [h]; simp), ih]

theorem getBy_scrub (f : StoredToken → String) (w : WhereParams)
    (hw : w.accessKey = none) (db : DB) :
    getBy w (scrubAccessKeys f db) = getBy w db := by
  unfold getBy scrubAccessKeys
  by_cases he : w.isEmpty
  · simp [he]
  · simp only [he, if_false]
    rw [find?_scrub f w hw db.tokens]
    cases hf : db.tokens.find? (matchesWhere w) with
    | none => rfl
    | some t => rfl

theorem insertByName_scrub (f : StoredToken → String) (t : StoredToken) :
    ∀ l : List StoredToken,
      insertByName { t with accessKey := f t } (l.map (fun u => { u with accessKey := f u }))
        = (insertByName t l).map (fun u => { u with accessKey := f u }) := by
  intro l
  induction l with
  | nil => rfl
  | cons u rest ih =>
    rw [List.map_cons]
    by_cases h : nameLe t.name u.name = true
    · simp [insertByName, h]
    · simp [insertByName, h, ih]

theorem sortByName_scrub (f : StoredToken → String) :
    ∀ ts : List StoredToken,
      sortByName (ts.map (fun u => { u with accessKey := f u }))
        = (sortByName ts).map (fun u => { u with accessKey := f u }) := by
  intro ts
  induction ts with
  | nil => rfl
  | cons t rest ih =>
    simp only [sortByName, List.map_cons, List.foldr_cons]
    rw [show List.foldr insertByName []
        (rest.map (fun u => { u with accessKey := f u }))
      = sortByName (rest.map (fun u => { u with accessKey := f u })) from rfl, ih]
    exact insertByName_scrub f t (sortByName rest)

theorem list_scrub (f : StoredToken → String) (db : DB) :
    list (scrubAccessKeys f db) = list db := by
  unfold list scrubAccessKeys
  rw [sortByName_scrub, List.map_map]
  apply List.map_congr_left
  intro t _
  rfl

/-! ### C1: plaintext secrets and the store -/

/-- C1 counterexample: `update` passes the payload minus `permissions`
straight to the store, so an update carrying `accessKey` persists the
caller's plaintext verbatim in the `accessKey` column (no hashing is
involved at all): after this concrete successful update the stored
column equals the supplied plaintext, refuting "no operation ever
persists the plaintext in cleartext". -/
theorem C1_counterexample :
    isOkRes (update [] [] 1 { accessKey := some (.str "plaintext-secret-key") } sampleDB).1
      = true ∧
    ((update [] [] 1 { accessKey := some (.str "plaintext-secret-key") } sampleDB).2.tokens.map
        (fun u => u.accessKey)) = ["plaintext-secret-key"] :=
  ⟨rfl, rfl⟩

/-- C1 amended: `create` persists only the keyed hash of the secret and
returns the plaintext in its result; `regenerate` likewise rewrites the
stored column to the keyed hash and returns the plaintext; every read
path (`list`, `getById`, `getByName`, and `getBy` whenever the access
key is not itself the lookup key) is unchanged under arbitrary
rewriting of the stored `accessKey` column, so no read exposes it; but
`update` is an exception to the original claim: a caller-supplied
`accessKey` in the update payload is persisted verbatim in cleartext. -/
theorem C1_plaintext_exposure (registry : List String) (allowed : List Int)
    (hmac : String → String → String) (sv randomKey : String) (now : Int)
    (attrs : TokenUpdatePayload) (db : DB) (ex : Option Int × Option Int)
    (id i : Nat) (t : StoredToken) (w : WhereParams) (f : StoredToken → String)
    (nm s : String) :
    (attrs.accessKey = none →
      assertTokenPermissionsValidity registry { attrs with accessKey := none } = .ok () →
      assertValidLifespan allowed attrs.lifespanVal = .ok () →
      getExpirationFields attrs.lifespanVal now = .ok ex →
      (∀ c, (create registry allowed hmac (some sv) randomKey now attrs db).1 = .ok c →
        c.accessKey = randomKey) ∧
      ((create registry allowed hmac (some sv) randomKey now attrs db).2.2.tokens.map
          (fun u => u.accessKey))
        = db.tokens.map (fun u => u.accessKey) ++ [hmac sv randomKey]) ∧
    (db.tokens.find? (fun u => u.id == id) = some t →
      (regenerate hmac (some sv) randomKey id db).1
        = .ok { id := t.id, accessKey := randomKey } ∧
      ((regenerate hmac (some sv) randomKey id db).2.tokens.map (fun u => u.accessKey))
        = db.tokens.map (fun u => if u.id == id then hmac sv randomKey else u.accessKey)) ∧
    (list (scrubAccessKeys f db) = list db ∧
      getById i (scrubAccessKeys f db) = getById i db ∧
      getByName nm (scrubAccessKeys f db) = getByName nm db ∧
      (w.accessKey = none → getBy w (scrubAccessKeys f db) = getBy w db)) ∧
    (attrs.accessKey = some (.str s) →
      db.tokens.find? (fun u => u.id == id) = some t →
      assertTokenPermissionsValidity registry attrs = .ok () →
      assertValidLifespan allowed attrs.lifespanVal = .ok () →
      ((update registry allowed id attrs db).2.tokens.map (fun u => u.accessKey))
        = db.tokens.map (fun u => if u.id == id then s else u.accessKey)) := by
  refine ⟨?_, ?_, ?_, ?_⟩
  · intro hak hperm hlife hexp
    have hlife2 : assertValidLifespan allowed
        ({ attrs with accessKey := none } : TokenUpdatePayload).lifespanVal = .ok () := hlife
    have hexp2 : getExpirationFields
        ({ attrs with accessKey := none } : TokenUpdatePayload).lifespanVal now = .ok ex := hexp
    constructor
    · intro c hc
      simp only [create, hak, hperm, hlife2, hash, hexp2, Except.ok.injEq] at hc
      subst hc
      rfl
    · simp only [create, hak, hperm, hlife2, hash, hexp2]
      rw [foldl_dbCreatePerm_tokens]
      simp [dbCreateToken]
  · intro hfind
    constructor
    · simp only [regenerate, hash, dbUpdateToken, hfind]
      rfl
    · simp only [regenerate, hash, dbUpdateToken, hfind]
      exact map_accessKey_update _ (hmac sv randomKey) rfl id db.tokens
  · exact ⟨list_scrub f db, getBy_scrub f { id := some i } rfl db,
      getBy_scrub f { name := some nm } rfl db, fun hw => getBy_scrub f w hw db⟩
  · intro hak hfind hperm hlife
    rw [update_ok_tokens registry allowed id attrs db t hfind hperm hlife]
    exact map_accessKey_update _ s (by simp [updateDataOf, hak]) id db.tokens

/-- Witness for C1 amended: a concrete create stores only the keyed
hash next to the pre-existing row, and `list` cannot tell stored hashes
apart. -/
theorem C1_plaintext_exposure_witness :
    ((create [] [] sampleHmac (some "salt") "0123456789abcdef" 0 {} sampleDB).2.2.tokens.map
        (fun u => u.accessKey))
      = ["storedhash", sampleHmac "salt" "0123456789abcdef"] ∧
    list (scrubAccessKeys (fun _ => "") sampleDB) = list sampleDB := by
  have h := C1_plaintext_exposure [] [] sampleHmac "salt" "0123456789abcdef" 0 {} sampleDB
    (none, none) 1 1 sampleToken {} (fun _ => "") "n" "s"
  exact ⟨(h.1 rfl rfl rfl rfl).2, h.2.2.1.1⟩

/-! ### C10: mutation of the caller's attributes object -/

/-- C10 counterexample: when the supplied access key fails validation,
`create` throws before reaching `delete attributes.accessKey`, so the
caller's attributes object still contains the key after the failed
call, refuting "after any call to create — whether it succeeds or fails
— the caller's attrs record no longer contains the accessKey key". -/
theorem C10_counterexample :
    create [] [] sampleHmac (some "salt") "0123456789abcdef" 0
        { accessKey := some (.str "short") } sampleDB
      = (.error (.assertion "Access key needs to have at least 15 characters"),
         { accessKey := some (.str "short") }, sampleDB) ∧
    ({ accessKey := some (.str "short") } : TokenUpdatePayload).accessKey.isSome = true :=
  ⟨rfl, rfl⟩

/-- C10 amended: `create` deletes `accessKey` from the caller's
attributes right after the secret is determined, so the returned
attributes lack the key whenever the access-key step itself succeeds
(key absent, or present and valid) — including when the call fails
later on permissions or lifespan; but when access-key validation
itself fails, the attributes are returned unmutated with the key still
present. The mere presence of the key (even as a non-string such as
`undefined`) selects the validation path rather than random
generation: a present invalid value is rejected, and a present valid
string becomes the token's secret in place of the generated one. -/
theorem C10_create_mutates_attrs (registry : List String) (allowed : List Int)
    (hmac : String → String → String) (salt : Option String)
    (randomKey : String) (now : Int) (attrs : TokenUpdatePayload) (db : DB)
    (v : JsVal) (s : String) (e : TokenError) :
    (attrs.accessKey = none →
      (create registry allowed hmac salt randomKey now attrs db).2.1.accessKey = none) ∧
    (attrs.accessKey = some v → validateAccessKey v = .ok s →
      (create registry allowed hmac salt randomKey now attrs db).2.1.accessKey = none) ∧
    (attrs.accessKey = some v → validateAccessKey v = .error e →
      create registry allowed hmac salt randomKey now attrs db = (.error e, attrs, db)) ∧
    (attrs.accessKey = some .undef →
      create registry allowed hmac salt randomKey now attrs db
        = (.error (.assertion "Access key needs to be a string"), attrs, db)) ∧
    (attrs.accessKey = some v → validateAccessKey v = .ok s →
      ∀ c, (create registry allowed hmac salt randomKey now attrs db).1 = .ok c →
        c.accessKey = s) := by
  refine ⟨?_, ?_, ?_, ?_, ?_⟩
  · intro hak
    simp only [create, hak]
    split
    · rfl
    · split
      · rfl
      · split
        · rfl
        · split
          · rfl
          · rfl
  · intro hak hv
    simp only [create, hak, hv]
    split
    · rfl
    · split
      · rfl
      · split
        · rfl
        · split
          · rfl
          · rfl
  · intro hak hv
    simp only [create, hak, hv]
  · intro hak
    simp only [create, hak, validateAccessKey]
  · intro hak hv c hc
    simp only [create, hak, hv] at hc
    split at hc
    · exact absurd hc (by simp)
    · split at hc
      · exact absurd hc (by simp)
      · split at hc
        · exact absurd hc (by simp)
        · split at hc
          · exact absurd hc (by simp)
          · simp only [Except.ok.injEq] at hc
            subst hc
            rfl

/-- Witness for C10 amended: a valid 16-character supplied key is
removed from the attributes by the call, and an `undefined` value
still present under the key selects the validation path and is
rejected as a non-string. -/
theorem C10_create_mutates_attrs_witness :
    (create ["push"] [] sampleHmac (some "salt") "r" 0
        { accessKey := some (.str "0123456789abcdef") } sampleDB).2.1.accessKey = none ∧
    create ["push"] [] sampleHmac (some "salt") "r" 0
        { accessKey := some .undef } sampleDB
      = (.error (.assertion "Access key needs to be a string"),
         { accessKey := some .undef }, sampleDB) := by
  have h1 := C10_create_mutates_attrs ["push"] [] sampleHmac (some "salt") "r" 0
    { accessKey := some (.str "0123456789abcdef") } sampleDB
    (.str "0123456789abcdef") "0123456789abcdef" (.assertion "x")
  have h2 := C10_create_mutates_attrs ["push"] [] sampleHmac (some "salt") "r" 0
    { accessKey := some .undef } sampleDB .undef (joinComma []) (.assertion "x")
  exact ⟨h1.2.1 rfl rfl, h2.2.2.2.1 rfl⟩

end TransferTokens
